import Mathlib

/-!
The ECS client of ecs-deploy (`client/client.go`)

A shallow embedding of the deployment client and its properties.

Conventions of the embedding.

* A Go `string` is a sequence of characters, `Str`.  `strings.Split` is only ever
  called with the one-character separator ":" and `strings.HasPrefix` compares
  leading characters, so nothing depends on the encoding.
* `c.svc`, the AWS SDK handle, is a record `ECS` of response functions (a scripted
  gateway).  `StopTask` and `DescribeServices` are asked repeatedly inside loops, so
  their answer may depend on how many requests of that kind came before.
* Every client function returns, next to its Go result, the list of gateway requests
  it issued, in order (`Call`).
* A Go run-time panic (index out of range, nil dereference) is the outcome
  `Run.panic`.
* SDK fields that are pointers and are only copied (`TaskRoleArn`, `NetworkMode`, the
  request fields) are `Option`s.  SDK response fields that the client dereferences
  (`Image`, a deployment's `TaskDefinition` and counts, the registered ARN) are filled
  in by the service in every response and are modelled by their value.  The one nil
  pointer the client produces itself, `GetDeployment` returning `nil, nil`, is kept as
  `none`.
* Logging is not modelled.
-/

set_option linter.unusedVariables false

namespace EcsDeploy

/-- A Go string. -/
abbrev Str := List Char

/-- A Go `error` value. -/
structure GoError where
  msg : String
  deriving DecidableEq, Repr

/-- Outcome of Go code that either returns a value or panics. -/
inductive Run (α : Type) where
  | ret (a : α)
  | panic
  deriving DecidableEq, Repr

/-! ## SDK types (the fields the client reads, copies or sets) -/

/-- The type `ecs.ContainerDefinition`: `Image` is the field the client rewrites; the other
fields stand for the remaining fields of the SDK type, none of which the client touches. -/
structure ContainerDefinition where
  Name : Option Str
  Image : Str
  Cpu : Option Int
  Memory : Option Int
  Essential : Option Bool
  Command : List Str
  Environment : List (Str × Str)
  deriving DecidableEq, Repr

/-- The type `ecs.Volume`. -/
structure Volume where
  Name : Option Str
  HostSourcePath : Option Str
  deriving DecidableEq, Repr

/-- The type `ecs.TaskDefinitionPlacementConstraint`. -/
structure PlacementConstraint where
  Expression : Option Str
  Type_ : Option Str
  deriving DecidableEq, Repr

/-- The type `ecs.TaskDefinition`, as returned by `DescribeTaskDefinition`. -/
structure TaskDefinition where
  Family : Option Str
  TaskRoleArn : Option Str
  NetworkMode : Option Str
  ContainerDefinitions : List ContainerDefinition
  Volumes : List Volume
  PlacementConstraints : List PlacementConstraint
  Revision : Option Int
  TaskDefinitionArn : Option Str
  deriving DecidableEq, Repr

/-- The type `ecs.DescribeTaskDefinitionInput`. -/
structure DescribeTaskDefinitionInput where
  TaskDefinition : Option Str
  deriving DecidableEq, Repr

/-- The type `ecs.RegisterTaskDefinitionInput`. -/
structure RegisterTaskDefinitionInput where
  Family : Option Str
  TaskRoleArn : Option Str
  NetworkMode : Option Str
  ContainerDefinitions : List ContainerDefinition
  Volumes : List Volume
  PlacementConstraints : List PlacementConstraint
  deriving DecidableEq, Repr

/-- The type `ecs.UpdateServiceInput`. -/
structure UpdateServiceInput where
  Cluster : Option Str
  Service : Option Str
  DesiredCount : Option Int
  TaskDefinition : Option Str
  deriving DecidableEq, Repr

/-- The type `ecs.ListTasksInput`. -/
structure ListTasksInput where
  Cluster : Option Str
  deriving DecidableEq, Repr

/-- The type `ecs.DescribeTasksInput`. -/
structure DescribeTasksInput where
  Cluster : Option Str
  Tasks : List Str
  deriving DecidableEq, Repr

/-- The type `ecs.Task`, as returned by `DescribeTasks`. -/
structure Task where
  TaskArn : Option Str
  TaskDefinitionArn : Option Str
  deriving DecidableEq, Repr

/-- The type `ecs.StopTaskInput`. -/
structure StopTaskInput where
  Cluster : Option Str
  Task : Option Str
  deriving DecidableEq, Repr

/-- The type `ecs.DescribeServicesInput`. -/
structure DescribeServicesInput where
  Cluster : Option Str
  Services : List Str
  deriving DecidableEq, Repr

/-- The type `ecs.Deployment`. -/
structure Deployment where
  TaskDefinition : Str
  DesiredCount : Int
  PendingCount : Int
  RunningCount : Int
  deriving DecidableEq, Repr

/-- The type `ecs.Service`. -/
structure Service where
  Deployments : List Deployment
  deriving DecidableEq, Repr

/-- The type `ecs.DescribeServicesOutput`. -/
structure DescribeServicesOutput where
  Services : List Service
  deriving DecidableEq, Repr

/-- The gateway `c.svc`.  Each operation answers with an output or an error.  `StopTask`
and `DescribeServices` also receive the number of earlier requests of the same kind. -/
structure ECS where
  DescribeTaskDefinition : DescribeTaskDefinitionInput → Except GoError TaskDefinition
  RegisterTaskDefinition : RegisterTaskDefinitionInput → Except GoError Str
  UpdateService : UpdateServiceInput → Option GoError
  ListTasks : ListTasksInput → Except GoError (List Str)
  DescribeTasks : DescribeTasksInput → Except GoError (List Task)
  StopTask : Nat → StopTaskInput → Option GoError
  DescribeServices : Nat → DescribeServicesInput → Except GoError DescribeServicesOutput

/-- A request issued to the gateway. -/
inductive Call where
  | DescribeTaskDefinition (input : DescribeTaskDefinitionInput)
  | RegisterTaskDefinition (input : RegisterTaskDefinitionInput)
  | UpdateService (input : UpdateServiceInput)
  | ListTasks (input : ListTasksInput)
  | DescribeTasks (input : DescribeTasksInput)
  | StopTask (input : StopTaskInput)
  | DescribeServices (input : DescribeServicesInput)
  deriving DecidableEq, Repr

/-! ## Go library functions -/

/-- Go `strings.Split(s, sep)` for a one-character separator: the pieces between the
occurrences of `sep`; a string without `sep` (the empty string too) gives one piece. -/
def stringsSplit (s : Str) (sep : Char) : List Str :=
  match s with
  | [] => [[]]
  | c :: cs =>
    if c = sep then [] :: stringsSplit cs sep
    else
      match stringsSplit cs sep with
      | [] => [[c]]
      | piece :: pieces => (c :: piece) :: pieces

/-- Go `strings.HasPrefix(s, p)`. -/
def stringsHasPrefix (s p : Str) : Bool :=
  p.isPrefixOf s

/-- Go `fmt.Sprintf("%s:%s", a, b)`. -/
def sprintfColon (a b : Str) : Str :=
  a ++ ':' :: b

/-! ## The client -/

/-- `GetTaskDefinition` (client.go 166-174). -/
def GetTaskDefinition (svc : ECS) (task : Str) : Except GoError TaskDefinition × List Call :=
  let input : DescribeTaskDefinitionInput := { TaskDefinition := some task }
  (svc.DescribeTaskDefinition input, [Call.DescribeTaskDefinition input])

/-- The body of the loop of `RegisterTaskDefinition` (client.go 42-45), for one
container `d`. -/
def rewriteImage (image tag : Str) (d : ContainerDefinition) : ContainerDefinition :=
  if stringsHasPrefix d.Image image then
    { d with Image := sprintfColon image tag }
  else d

/-- `RegisterTaskDefinition` (client.go 34-60).  The loop assigns through the pointers
held in `defs`, so after it `defs` holds every container with the loop body applied. -/
def RegisterTaskDefinition (svc : ECS) (task image tag : Str) :
    (Str × Option GoError) × List Call :=
  match GetTaskDefinition svc task with
  | (.error err, log) => (([], some err), log)
  | (.ok taskDef, log) =>
    let defs := taskDef.ContainerDefinitions.map (rewriteImage image tag)
    let input : RegisterTaskDefinitionInput :=
      { Family := some task
        TaskRoleArn := taskDef.TaskRoleArn
        NetworkMode := taskDef.NetworkMode
        ContainerDefinitions := defs
        Volumes := taskDef.Volumes
        PlacementConstraints := taskDef.PlacementConstraints }
    match svc.RegisterTaskDefinition input with
    | .error err => (([], some err), log ++ [Call.RegisterTaskDefinition input])
    | .ok arn => ((arn, none), log ++ [Call.RegisterTaskDefinition input])

/-- `UpdateService` (client.go 63-81).  `count` is a Go `int`; `int64(count)` keeps its
value. -/
def UpdateService (svc : ECS) (cluster service : Str) (count : Int) (arn : Str) :
    Option GoError × List Call :=
  let input : UpdateServiceInput :=
    { Cluster := some cluster
      Service := some service
      DesiredCount := none
      TaskDefinition := none }
  let input := if count ≠ -1 then { input with DesiredCount := some count } else input
  let input := if arn ≠ [] then { input with TaskDefinition := some arn } else input
  match svc.UpdateService input with
  | some err => (some err, [Call.UpdateService input])
  | none => (none, [Call.UpdateService input])

/-- The error of `divideTaskDefAndTag`. -/
def errTaskDefFormat : GoError := ⟨"task def format is wrong"⟩

/-- `divideTaskDefAndTag` (client.go 83-90).  `res[5]` and `res[6]` panic when the index
is not below `len(res)`. -/
def divideTaskDefAndTag (taskDef : Str) : Run (Str × Str × Option GoError) :=
  let res := stringsSplit taskDef ':'
  if res.length ≥ 7 then
    .ret ([], [], some errTaskDefFormat)
  else
    match res[5]?, res[6]? with
    | some family, some revision => .ret (family, revision, none)
    | _, _ => .panic

/-- The loop of `StopCurrentTasks` (client.go 111-124) over the remaining tasks, `n`
stop requests having been issued before. -/
def stopLoop (svc : ECS) (cluster taskDef t1 : Str) : Nat → List Task → Run (Option GoError) × List Call
  | _, [] => (.ret none, [])
  | n, task :: rest =>
    match divideTaskDefAndTag taskDef with
    | .panic => (.panic, [])
    | .ret (t2, _, _) =>
      if t1 ≠ t2 then
        stopLoop svc cluster taskDef t1 n rest
      else
        let inStopTasks : StopTaskInput := { Cluster := some cluster, Task := task.TaskArn }
        match svc.StopTask n inStopTasks with
        | some err => (.ret (some err), [Call.StopTask inStopTasks])
        | none =>
          let (r, log) := stopLoop svc cluster taskDef t1 (n + 1) rest
          (r, Call.StopTask inStopTasks :: log)

/-- `StopCurrentTasks` (client.go 93-126). -/
def StopCurrentTasks (svc : ECS) (cluster taskDef service : Str) :
    Run (Option GoError) × List Call :=
  let inListTasks : ListTasksInput := { Cluster := some cluster }
  match svc.ListTasks inListTasks with
  | .error err => (.ret (some err), [Call.ListTasks inListTasks])
  | .ok output =>
    let inDescribeTasks : DescribeTasksInput := { Cluster := some cluster, Tasks := output }
    match svc.DescribeTasks inDescribeTasks with
    | .error err =>
      (.ret (some err), [Call.ListTasks inListTasks, Call.DescribeTasks inDescribeTasks])
    | .ok out =>
      match divideTaskDefAndTag taskDef with
      | .panic => (.panic, [Call.ListTasks inListTasks, Call.DescribeTasks inDescribeTasks])
      | .ret (t1, _, _) =>
        let (r, log) := stopLoop svc cluster taskDef t1 0 out
        (r, Call.ListTasks inListTasks :: Call.DescribeTasks inDescribeTasks :: log)

/-- `GetDeployment` (client.go 147-163), as the `n`-th status query.  `Services[0]`
panics on an empty list; without a deployment for `arn` the result is `nil, nil`. -/
def GetDeployment (svc : ECS) (n : Nat) (cluster service arn : Str) :
    Run (Option Deployment × Option GoError) × Call :=
  let input : DescribeServicesInput := { Cluster := some cluster, Services := [service] }
  match svc.DescribeServices n input with
  | .error err => (.ret (none, some err), Call.DescribeServices input)
  | .ok output =>
    match output.Services with
    | [] => (.panic, Call.DescribeServices input)
    | s :: _ =>
      match s.Deployments.find? (fun d => decide (d.TaskDefinition = arn)) with
      | some d => (.ret (some d, none), Call.DescribeServices input)
      | none => (.ret (none, none), Call.DescribeServices input)

/-- `Wait` (client.go 129-144).  `ticks` is the number of ticks the ticker delivers and
`n` the number of status queries issued before.  The result is `none` while the loop is
still waiting for a tick; `*s.DesiredCount` with `s == nil` is a nil dereference. -/
def Wait (svc : ECS) (cluster service arn : Str) :
    Nat → Nat → Option (Run (Option GoError)) × List Call
  | 0, _ => (none, [])
  | ticks + 1, n =>
    match GetDeployment svc n cluster service arn with
    | (.panic, call) => (some .panic, [call])
    | (.ret (_, some err), call) => (some (.ret (some err)), [call])
    | (.ret (none, none), call) => (some .panic, [call])
    | (.ret (some s, none), call) =>
      if s.RunningCount = s.DesiredCount then
        (some (.ret none), [call])
      else
        let (r, log) := Wait svc cluster service arn ticks (n + 1)
        (r, call :: log)

/-! ## Notions used to state the properties -/

/-- The input of the stop request for the task `t` of `cluster` (client.go 116-119). -/
def stopInput (cluster : Str) (t : Task) : StopTaskInput :=
  { Cluster := some cluster, Task := t.TaskArn }

/-- The stop request for the task `t` of `cluster`. -/
def stopCall (cluster : Str) (t : Task) : Call :=
  Call.StopTask (stopInput cluster t)

/-- The stop requests among the requests of a log. -/
def stopRequests (log : List Call) : List StopTaskInput :=
  log.filterMap (fun c => match c with
    | Call.StopTask input => some input
    | _ => none)

/-- The family of a task-definition identifier as the specification reads it off
`arn:aws:ecs:region:account:task-definition/family:revision`: the sixth of the pieces
delimited by ":" (the piece `divideTaskDefAndTag` indexes as `res[5]`). -/
def specFamily (taskDef : Str) : Option Str :=
  (stringsSplit taskDef ':')[5]?

/-- The family of the task definition a described task was started from. -/
def taskFamily (t : Task) : Option Str :=
  t.TaskDefinitionArn.bind specFamily

/-- The input of the status query of `GetDeployment` (client.go 148-151). -/
def statusInput (cluster service : Str) : DescribeServicesInput :=
  { Cluster := some cluster, Services := [service] }

/-- The response `r` is successful and `d` is its deployment entry for `arn`: the first
deployment of the queried service whose task-definition reference equals `arn`. -/
def HasEntry (r : Except GoError DescribeServicesOutput) (arn : Str) (d : Deployment) : Prop :=
  ∃ (s : Service) (others : List Service) (before after : List Deployment),
    r = .ok { Services := s :: others } ∧
    s.Deployments = before ++ d :: after ∧
    d.TaskDefinition = arn ∧
    ∀ x ∈ before, x.TaskDefinition ≠ arn

/-! ## Example inputs -/

/-- An error reported by the gateway. -/
def errRemote : GoError := ⟨"remote call failed"⟩

/-- Identifier of revision 1 of family `app`. -/
def arnApp1 : Str := "arn:aws:ecs:us-east-1:123456789012:task-definition/app:1".toList

/-- Identifier of revision 2 of family `app`, the new deployment. -/
def arnApp2 : Str := "arn:aws:ecs:us-east-1:123456789012:task-definition/app:2".toList

/-- Identifier of revision 4 of family `other`. -/
def arnOther4 : Str := "arn:aws:ecs:us-east-1:123456789012:task-definition/other:4".toList

/-- Three running tasks, of families app, app and other. -/
def exTasks : List Task :=
  [ { TaskArn := some "task/a1".toList, TaskDefinitionArn := some arnApp1 },
    { TaskArn := some "task/a2".toList, TaskDefinitionArn := some arnApp1 },
    { TaskArn := some "task/o1".toList, TaskDefinitionArn := some arnOther4 } ]

/-- The identifiers of the three running tasks. -/
def exArns : List Str :=
  ["task/a1".toList, "task/a2".toList, "task/o1".toList]

/-- A gateway that lists and describes `exTasks`, answers stop requests by `stop` and
status queries by `status`, and fails every other operation. -/
def exSvc (stop : Nat → StopTaskInput → Option GoError)
    (status : Nat → DescribeServicesInput → Except GoError DescribeServicesOutput) : ECS :=
  { DescribeTaskDefinition := fun _ => .error errRemote
    RegisterTaskDefinition := fun _ => .error errRemote
    UpdateService := fun _ => some errRemote
    ListTasks := fun _ => .ok exArns
    DescribeTasks := fun _ => .ok exTasks
    StopTask := stop
    DescribeServices := status }

/-- A gateway on which every stop request succeeds. -/
def exSvcStopOk : ECS :=
  exSvc (fun _ _ => none) (fun _ _ => .error errRemote)

/-- A gateway on which the second stop request fails. -/
def exSvcStopSecondFails : ECS :=
  exSvc (fun n _ => if n = 1 then some errRemote else none) (fun _ _ => .error errRemote)

/-- The status response with one service and one deployment, for `arnApp2`. -/
def exStatus (desired pending running : Int) : Except GoError DescribeServicesOutput :=
  .ok { Services := [ { Deployments := [ { TaskDefinition := arnApp2,
                                             DesiredCount := desired,
                                             PendingCount := pending,
                                             RunningCount := running } ] } ] }

/-- The deployment entries of the scripted rollout (3,1), (3,2), (3,3). -/
def exRollout (n : Nat) : Deployment :=
  match n with
  | 0 => { TaskDefinition := arnApp2, DesiredCount := 3, PendingCount := 2, RunningCount := 1 }
  | 1 => { TaskDefinition := arnApp2, DesiredCount := 3, PendingCount := 1, RunningCount := 2 }
  | _ => { TaskDefinition := arnApp2, DesiredCount := 3, PendingCount := 0, RunningCount := 3 }

/-- A gateway whose status responses follow `exRollout`. -/
def exSvcRollout : ECS :=
  exSvc (fun _ _ => none) (fun n _ =>
    exStatus (exRollout n).DesiredCount (exRollout n).PendingCount (exRollout n).RunningCount)

/-- A gateway whose first status response is already converged. -/
def exSvcConverged : ECS :=
  exSvc (fun _ _ => none) (fun _ _ => exStatus 3 0 3)

/-- A gateway whose first status response lists only the deployment of the previous
revision and whose later responses show the new deployment converged. -/
def exSvcLag : ECS :=
  exSvc (fun _ _ => none) (fun n _ =>
    match n with
    | 0 => .ok { Services := [ { Deployments := [ { TaskDefinition := arnApp1,
                                                      DesiredCount := 3,
                                                      PendingCount := 0,
                                                      RunningCount := 3 } ] } ] }
    | _ => exStatus 3 0 3)

/-- A container of the examples, with image `image`. -/
def exContainer (name image : Str) : ContainerDefinition :=
  { Name := some name
    Image := image
    Cpu := some 256
    Memory := some 512
    Essential := some true
    Command := ["run".toList]
    Environment := [("ENV".toList, "production".toList)] }

/-- Revision 3 of the task definition of family web, with the given containers. -/
def exWebDef (containers : List ContainerDefinition) : TaskDefinition :=
  { Family := some "web".toList
    TaskRoleArn := some "arn:aws:iam::123456789012:role/web".toList
    NetworkMode := some "bridge".toList
    ContainerDefinitions := containers
    Volumes := [ { Name := some "data".toList, HostSourcePath := some "/data".toList } ]
    PlacementConstraints :=
      [ { Expression := some "attribute:ecs.instance-type =~ t2.*".toList,
          Type_ := some "memberOf".toList } ]
    Revision := some 3
    TaskDefinitionArn :=
      some "arn:aws:ecs:us-east-1:123456789012:task-definition/web:3".toList }

/-- A gateway that returns the task definition `S`, registers every request as revision 4
of family web and accepts every service update. -/
def exSvcRegister (S : TaskDefinition) : ECS :=
  { DescribeTaskDefinition := fun _ => .ok S
    RegisterTaskDefinition := fun _ =>
      .ok "arn:aws:ecs:us-east-1:123456789012:task-definition/web:4".toList
    UpdateService := fun _ => none
    ListTasks := fun _ => .error errRemote
    DescribeTasks := fun _ => .error errRemote
    StopTask := fun _ _ => some errRemote
    DescribeServices := fun _ _ => .error errRemote }

/-- The scenario of the specification: one container with image `123.dkr.ecr/app:v1`,
next to a proxy container. -/
def exWebV1 : TaskDefinition :=
  exWebDef [exContainer "app".toList "123.dkr.ecr/app:v1".toList,
    exContainer "proxy".toList "nginx:1.11".toList]

/-- A task definition with a container of repository `app` and one of repository
`app-sidecar`. -/
def exSidecar : TaskDefinition :=
  exWebDef [exContainer "app".toList "app:v1".toList,
    exContainer "sidecar".toList "app-sidecar:v1".toList]

/-! ## Lemmas on the library functions -/

theorem stringsSplit_length (s : Str) (sep : Char) :
    (stringsSplit s sep).length = s.count sep + 1 := by
  induction s with
  | nil => simp [stringsSplit]
  | cons c cs ih =>
    by_cases h : c = sep
    · subst h
      simp [stringsSplit, ih]
    · have hne : (c == sep) = false := by simpa using h
      rw [stringsSplit, if_neg h]
      cases hs : stringsSplit cs sep with
      | nil => rw [hs] at ih; simp at ih
      | cons piece pieces =>
        rw [hs] at ih
        simp only [List.length_cons] at ih ⊢
        rw [List.count_cons, hne]
        simpa using ih

theorem stringsHasPrefix_iff (s p : Str) : stringsHasPrefix s p = true ↔ p <+: s := by
  simp [stringsHasPrefix]

/-! ## Lemmas on `divideTaskDefAndTag` -/

theorem divideTaskDefAndTag_of_le (taskDef : Str)
    (h : 7 ≤ (stringsSplit taskDef ':').length) :
    divideTaskDefAndTag taskDef = .ret ([], [], some errTaskDefFormat) := by
  simp [divideTaskDefAndTag, h]

theorem divideTaskDefAndTag_of_lt (taskDef : Str)
    (h : (stringsSplit taskDef ':').length < 7) :
    divideTaskDefAndTag taskDef = .panic := by
  have h6 : (stringsSplit taskDef ':')[6]? = none := by
    rw [List.getElem?_eq_none_iff]; omega
  have hn : ¬ 7 ≤ (stringsSplit taskDef ':').length := by omega
  simp only [divideTaskDefAndTag, ge_iff_le, if_neg hn, h6]
  split <;> simp_all

theorem divideTaskDefAndTag_no_family (taskDef family revision : Str) :
    divideTaskDefAndTag taskDef ≠ .ret (family, revision, none) := by
  by_cases h : 7 ≤ (stringsSplit taskDef ':').length
  · rw [divideTaskDefAndTag_of_le taskDef h]; simp
  · rw [divideTaskDefAndTag_of_lt taskDef (by omega)]; simp

/-! ## Lemmas on the loop of `StopCurrentTasks` -/

theorem stopLoop_cons (svc : ECS) (cluster taskDef : Str)
    (h : 7 ≤ (stringsSplit taskDef ':').length) (n : Nat) (task : Task) (rest : List Task) :
    stopLoop svc cluster taskDef [] n (task :: rest) =
      match svc.StopTask n { Cluster := some cluster, Task := task.TaskArn } with
      | some err => (.ret (some err), [stopCall cluster task])
      | none =>
        ((stopLoop svc cluster taskDef [] (n + 1) rest).1,
          stopCall cluster task :: (stopLoop svc cluster taskDef [] (n + 1) rest).2) := by
  rw [stopLoop, divideTaskDefAndTag_of_le taskDef h]
  simp only [ne_eq, not_true_eq_false, if_false, stopCall, stopInput]

theorem stopLoop_all_ok (svc : ECS) (cluster taskDef : Str)
    (h : 7 ≤ (stringsSplit taskDef ':').length) (tasks : List Task) :
    ∀ n : Nat,
      (∀ j t, tasks[j]? = some t →
        svc.StopTask (n + j) { Cluster := some cluster, Task := t.TaskArn } = none) →
      stopLoop svc cluster taskDef [] n tasks = (.ret none, tasks.map (stopCall cluster)) := by
  induction tasks with
  | nil => intro n _; simp [stopLoop]
  | cons task rest ih =>
    intro n hok
    have h0 := hok 0 task (by simp)
    rw [Nat.add_zero] at h0
    have hrest := ih (n + 1) (fun j t hj => by
      have := hok (j + 1) t (by simpa using hj)
      rwa [show n + (j + 1) = n + 1 + j by omega] at this)
    rw [stopLoop_cons svc cluster taskDef h, h0, hrest]
    simp

theorem stopLoop_first_failure (svc : ECS) (cluster taskDef : Str)
    (h : 7 ≤ (stringsSplit taskDef ':').length) (tasks : List Task) :
    ∀ (n k : Nat) (t : Task) (e : GoError),
      tasks[k]? = some t →
      (∀ j u, j < k → tasks[j]? = some u →
        svc.StopTask (n + j) { Cluster := some cluster, Task := u.TaskArn } = none) →
      svc.StopTask (n + k) { Cluster := some cluster, Task := t.TaskArn } = some e →
      stopLoop svc cluster taskDef [] n tasks =
        (.ret (some e), (tasks.take (k + 1)).map (stopCall cluster)) := by
  induction tasks with
  | nil => intro n k t e hk; simp at hk
  | cons task rest ih =>
    intro n k t e hk hok hfail
    cases k with
    | zero =>
      simp only [List.getElem?_cons_zero, Option.some.injEq] at hk
      subst hk
      rw [Nat.add_zero] at hfail
      rw [stopLoop_cons svc cluster taskDef h, hfail]
      simp
    | succ k =>
      have h0 := hok 0 task (by omega) (by simp)
      rw [Nat.add_zero] at h0
      have hk' : rest[k]? = some t := by simpa using hk
      have hrest := ih (n + 1) k t e hk'
        (fun j u hj hu => by
          have := hok (j + 1) u (by omega) (by simpa using hu)
          rwa [show n + (j + 1) = n + 1 + j by omega] at this)
        (by rwa [show n + (k + 1) = n + 1 + k by omega] at hfail)
      rw [stopLoop_cons svc cluster taskDef h, h0, hrest]
      simp

theorem stopLoop_skips_on_difference (svc : ECS) (cluster taskDef t1 : Str)
    (h : 7 ≤ (stringsSplit taskDef ':').length) (ht1 : t1 ≠ []) (tasks : List Task) :
    ∀ n : Nat, stopLoop svc cluster taskDef t1 n tasks = (.ret none, []) := by
  induction tasks with
  | nil => intro n; simp [stopLoop]
  | cons task rest ih =>
    intro n
    rw [stopLoop, divideTaskDefAndTag_of_le taskDef h]
    simp only [ne_eq, ht1, not_false_eq_true, if_true]
    exact ih n

theorem StopCurrentTasks_eq_stopLoop (svc : ECS) (cluster taskDef service : Str)
    (arns : List Str) (tasks : List Task)
    (h : 7 ≤ (stringsSplit taskDef ':').length)
    (hlist : svc.ListTasks { Cluster := some cluster } = .ok arns)
    (hdesc : svc.DescribeTasks { Cluster := some cluster, Tasks := arns } = .ok tasks) :
    StopCurrentTasks svc cluster taskDef service =
      ((stopLoop svc cluster taskDef [] 0 tasks).1,
        Call.ListTasks { Cluster := some cluster } ::
        Call.DescribeTasks { Cluster := some cluster, Tasks := arns } ::
        (stopLoop svc cluster taskDef [] 0 tasks).2) := by
  simp only [StopCurrentTasks, hlist, hdesc, divideTaskDefAndTag_of_le taskDef h]

theorem stopRequests_map_stopCall (cluster : Str) (tasks : List Task) :
    stopRequests (tasks.map (stopCall cluster)) =
      tasks.map (stopInput cluster) := by
  induction tasks with
  | nil => rfl
  | cons t ts ih =>
    simp only [stopRequests, List.map_cons, List.filterMap_cons, stopCall, stopInput] at ih ⊢
    rw [ih]

/-! ## `divideTaskDefAndTag` -/

/-- C5 (the code departs from it).  On the seven-piece identifier
`arn:aws:ecs:us-east-1:123456789012:task-definition/app:2` the function
`divideTaskDefAndTag` returns the format error with empty family and revision instead of
the sixth and seventh pieces, and on the one-piece identifier `app` it panics on the
index `res[5]` instead of returning the format error. -/
theorem divideTaskDefAndTag_rejects_seven_pieces :
    (stringsSplit arnApp2 ':').length = 7 ∧
    (stringsSplit arnApp2 ':')[5]? = some "task-definition/app".toList ∧
    (stringsSplit arnApp2 ':')[6]? = some "2".toList ∧
    divideTaskDefAndTag arnApp2 = .ret ([], [], some errTaskDefFormat) ∧
    (stringsSplit "app".toList ':').length = 1 ∧
    divideTaskDefAndTag "app".toList = .panic := by
  decide

/-! ## `StopCurrentTasks` -/

/-- C10.  When `taskDef` has at least seven pieces and the list call, the describe call
and every stop request succeed, `StopCurrentTasks` returns without error having issued
the list request, the describe request and then exactly one stop request per described
task, in list order, whatever the tasks' own identifiers and the `service` argument
are. -/
theorem StopCurrentTasks_stops_every_task (svc : ECS) (cluster taskDef service : Str)
    (arns : List Str) (tasks : List Task)
    (h : 7 ≤ (stringsSplit taskDef ':').length)
    (hlist : svc.ListTasks { Cluster := some cluster } = .ok arns)
    (hdesc : svc.DescribeTasks { Cluster := some cluster, Tasks := arns } = .ok tasks)
    (hstop : ∀ n input, svc.StopTask n input = none) :
    StopCurrentTasks svc cluster taskDef service =
      (.ret none,
        Call.ListTasks { Cluster := some cluster } ::
        Call.DescribeTasks { Cluster := some cluster, Tasks := arns } ::
        tasks.map (fun t => Call.StopTask { Cluster := some cluster, Task := t.TaskArn })) := by
  rw [StopCurrentTasks_eq_stopLoop svc cluster taskDef service arns tasks h hlist hdesc,
    stopLoop_all_ok svc cluster taskDef h tasks 0 (fun j t _ => hstop _ _)]
  rfl

/-- Witness of C10 on the three example tasks. -/
theorem StopCurrentTasks_stops_every_task_witness :
    7 ≤ (stringsSplit arnApp2 ':').length ∧
    StopCurrentTasks exSvcStopOk "prod".toList arnApp2 "web".toList =
      (.ret none,
        Call.ListTasks { Cluster := some "prod".toList } ::
        Call.DescribeTasks { Cluster := some "prod".toList, Tasks := exArns } ::
        exTasks.map (fun t =>
          Call.StopTask { Cluster := some "prod".toList, Task := t.TaskArn })) :=
  ⟨by decide,
    StopCurrentTasks_stops_every_task exSvcStopOk "prod".toList arnApp2 "web".toList
      exArns exTasks (by decide) rfl rfl
      (fun _ _ => rfl)⟩

theorem StopCurrentTasks_panics_of_lt (svc : ECS) (cluster taskDef service : Str)
    (arns : List Str) (tasks : List Task)
    (h : (stringsSplit taskDef ':').length < 7)
    (hlist : svc.ListTasks { Cluster := some cluster } = .ok arns)
    (hdesc : svc.DescribeTasks { Cluster := some cluster, Tasks := arns } = .ok tasks) :
    StopCurrentTasks svc cluster taskDef service =
      (.panic,
        [Call.ListTasks { Cluster := some cluster },
          Call.DescribeTasks { Cluster := some cluster, Tasks := arns }]) := by
  simp only [StopCurrentTasks, hlist, hdesc, divideTaskDefAndTag_of_lt taskDef h]

/-- C9 (the code departs from it).  With the identifier `app:2`, which has two pieces,
and a gateway on which the list call, the describe call and every stop request succeed,
no stop request fails, yet `StopCurrentTasks` does not return without error: it panics
on `res[5]` in `divideTaskDefAndTag` (client.go 110) after the list and describe
requests, before any stop request is issued. -/
theorem StopCurrentTasks_panics_before_loop :
    (stringsSplit "app:2".toList ':').length = 2 ∧
    (∀ n input, exSvcStopOk.StopTask n input = none) ∧
    divideTaskDefAndTag "app:2".toList = .panic ∧
    StopCurrentTasks exSvcStopOk "prod".toList "app:2".toList "web".toList =
      (.panic,
        [Call.ListTasks { Cluster := some "prod".toList },
          Call.DescribeTasks { Cluster := some "prod".toList, Tasks := exArns }]) ∧
    (StopCurrentTasks exSvcStopOk "prod".toList "app:2".toList "web".toList).1 ≠ .ret none ∧
    stopRequests (StopCurrentTasks exSvcStopOk "prod".toList "app:2".toList "web".toList).2 =
      [] :=
  ⟨by decide, fun _ _ => rfl, by decide, by decide, by decide, by decide⟩

/-- The error handling of the loop of `StopCurrentTasks`, once the loop is reached (list
and describe calls succeeded, `taskDef` decomposed without panic, which takes at least
seven pieces): if the stop request for the task at
position `k` is the first to fail, with error `e`, the function returns exactly `e`, and
the stop requests issued are those for the tasks at positions `0..k`, none for a later
task; if no stop request fails, it returns no error. -/
theorem StopCurrentTasks_loop_first_failure (svc : ECS) (cluster taskDef service : Str)
    (arns : List Str) (tasks : List Task)
    (h : 7 ≤ (stringsSplit taskDef ':').length)
    (hlist : svc.ListTasks { Cluster := some cluster } = .ok arns)
    (hdesc : svc.DescribeTasks { Cluster := some cluster, Tasks := arns } = .ok tasks) :
    (∀ (k : Nat) (t : Task) (e : GoError),
      tasks[k]? = some t →
      (∀ j u, j < k → tasks[j]? = some u →
        svc.StopTask j { Cluster := some cluster, Task := u.TaskArn } = none) →
      svc.StopTask k { Cluster := some cluster, Task := t.TaskArn } = some e →
      (StopCurrentTasks svc cluster taskDef service).1 = .ret (some e) ∧
      stopRequests (StopCurrentTasks svc cluster taskDef service).2 =
        (tasks.take (k + 1)).map (stopInput cluster)) ∧
    ((∀ j u, tasks[j]? = some u →
        svc.StopTask j { Cluster := some cluster, Task := u.TaskArn } = none) →
      (StopCurrentTasks svc cluster taskDef service).1 = .ret none ∧
      stopRequests (StopCurrentTasks svc cluster taskDef service).2 =
        tasks.map (stopInput cluster)) := by
  rw [StopCurrentTasks_eq_stopLoop svc cluster taskDef service arns tasks h hlist hdesc]
  refine ⟨fun k t e hk hok hfail => ?_, fun hok => ?_⟩
  · rw [stopLoop_first_failure svc cluster taskDef h tasks 0 k t e hk
      (fun j u hj hu => by simpa using hok j u hj hu) (by simpa using hfail)]
    refine ⟨rfl, ?_⟩
    show stopRequests (_ :: _ :: List.map (stopCall cluster) (List.take (k + 1) tasks)) = _
    rw [← stopRequests_map_stopCall]
    rfl
  · rw [stopLoop_all_ok svc cluster taskDef h tasks 0
      (fun j u hu => by simpa using hok j u hu)]
    refine ⟨rfl, ?_⟩
    show stopRequests (_ :: _ :: List.map (stopCall cluster) tasks) = _
    rw [← stopRequests_map_stopCall]
    rfl

/-- Instance of the loop's error handling: on the three example tasks with the second stop request failing, the
error of that request is returned after the stop requests for the first two tasks. -/
theorem StopCurrentTasks_loop_first_failure_example :
    7 ≤ (stringsSplit arnApp2 ':').length ∧
    (StopCurrentTasks exSvcStopSecondFails "prod".toList arnApp2 "web".toList).1 =
      .ret (some errRemote) ∧
    stopRequests (StopCurrentTasks exSvcStopSecondFails "prod".toList arnApp2 "web".toList).2 =
      [ { Cluster := some "prod".toList, Task := some "task/a1".toList },
        { Cluster := some "prod".toList, Task := some "task/a2".toList } ] :=
  ⟨by decide,
    (StopCurrentTasks_loop_first_failure exSvcStopSecondFails "prod".toList arnApp2 "web".toList
      exArns exTasks (by decide) rfl rfl).1
      1 { TaskArn := some "task/a2".toList, TaskDefinitionArn := some arnApp1 } errRemote rfl
      (fun j u hj _ => by
        have hj0 : j = 0 := by omega
        subst hj0
        rfl)
      rfl⟩

/-- C1 (counterexample).  Tasks of families app, app, other, new deployment
of family app, every stop request succeeding: `StopCurrentTasks` issues three stop
requests, two of them for the tasks whose family is the new deployment's family, and not
just the one for the task of family other. -/
theorem StopCurrentTasks_stops_tasks_of_new_family :
    exTasks.map taskFamily =
      [some "task-definition/app".toList, some "task-definition/app".toList,
        some "task-definition/other".toList] ∧
    specFamily arnApp2 = some "task-definition/app".toList ∧
    (StopCurrentTasks exSvcStopOk "prod".toList arnApp2 "web".toList).1 = .ret none ∧
    stopRequests (StopCurrentTasks exSvcStopOk "prod".toList arnApp2 "web".toList).2 =
      [ { Cluster := some "prod".toList, Task := some "task/a1".toList },
        { Cluster := some "prod".toList, Task := some "task/a2".toList },
        { Cluster := some "prod".toList, Task := some "task/o1".toList } ] ∧
    stopRequests (StopCurrentTasks exSvcStopOk "prod".toList arnApp2 "web".toList).2 ≠
      [ { Cluster := some "prod".toList, Task := some "task/o1".toList } ] := by
  decide

/-- C1 (amended).  When `taskDef` has at least seven pieces and the list call, the
describe call and every stop request succeed, `StopCurrentTasks` issues a stop request
for every described task whose family equals the family of `taskDef`, and the stop
requests it issues are requests for described tasks, at most one per task and in list
order. -/
theorem StopCurrentTasks_stops_family_tasks (svc : ECS) (cluster taskDef service : Str)
    (arns : List Str) (tasks : List Task)
    (h : 7 ≤ (stringsSplit taskDef ':').length)
    (hlist : svc.ListTasks { Cluster := some cluster } = .ok arns)
    (hdesc : svc.DescribeTasks { Cluster := some cluster, Tasks := arns } = .ok tasks)
    (hstop : ∀ n input, svc.StopTask n input = none) :
    (∀ t ∈ tasks, taskFamily t = specFamily taskDef →
      stopInput cluster t ∈ stopRequests (StopCurrentTasks svc cluster taskDef service).2) ∧
    (stopRequests (StopCurrentTasks svc cluster taskDef service).2).Sublist
      (tasks.map (stopInput cluster)) := by
  have hreq : stopRequests (StopCurrentTasks svc cluster taskDef service).2 =
      tasks.map (stopInput cluster) := by
    rw [StopCurrentTasks_eq_stopLoop svc cluster taskDef service arns tasks h hlist hdesc,
      stopLoop_all_ok svc cluster taskDef h tasks 0 (fun j t _ => hstop _ _)]
    show stopRequests (_ :: _ :: List.map (stopCall cluster) tasks) = _
    rw [← stopRequests_map_stopCall]
    rfl
  rw [hreq]
  exact ⟨fun t ht _ => List.mem_map_of_mem _ ht, List.Sublist.refl _⟩

/-- Witness of C1 (amended): on the three example tasks the first task, of family app
as the new deployment, is sent a stop request. -/
theorem StopCurrentTasks_stops_family_tasks_witness :
    7 ≤ (stringsSplit arnApp2 ':').length ∧
    taskFamily { TaskArn := some "task/a1".toList, TaskDefinitionArn := some arnApp1 } =
      specFamily arnApp2 ∧
    stopInput "prod".toList { TaskArn := some "task/a1".toList, TaskDefinitionArn := some arnApp1 } ∈
      stopRequests (StopCurrentTasks exSvcStopOk "prod".toList arnApp2 "web".toList).2 :=
  ⟨by decide, by decide,
    (StopCurrentTasks_stops_family_tasks exSvcStopOk "prod".toList arnApp2 "web".toList
      exArns exTasks (by decide) rfl rfl (fun _ _ => rfl)).1
      { TaskArn := some "task/a1".toList, TaskDefinitionArn := some arnApp1 }
      (by decide) (by decide)⟩

/-! ## `GetDeployment` and `Wait` -/

theorem GetDeployment_of_hasEntry (svc : ECS) (n : Nat) (cluster service arn : Str)
    (d : Deployment)
    (h : HasEntry (svc.DescribeServices n (statusInput cluster service)) arn d) :
    GetDeployment svc n cluster service arn =
      (.ret (some d, none), Call.DescribeServices (statusInput cluster service)) := by
  obtain ⟨s, others, before, after, hr, hs, hd, hbefore⟩ := h
  have hfind : s.Deployments.find? (fun x => decide (x.TaskDefinition = arn)) = some d := by
    rw [hs, List.find?_append]
    have hnone : List.find? (fun x => decide (x.TaskDefinition = arn)) before = none := by
      rw [List.find?_eq_none]
      intro x hx
      simpa using hbefore x hx
    rw [hnone]
    simp [hd]
  unfold statusInput at hr
  simp only [GetDeployment, hr, hfind, statusInput]

theorem Wait_converges_from (svc : ECS) (cluster service arn : Str) (ds : Nat → Deployment) :
    ∀ (k n ticks : Nat),
      (∀ i, i ≤ k →
        HasEntry (svc.DescribeServices (n + i) (statusInput cluster service)) arn (ds (n + i))) →
      (∀ i, i < k → (ds (n + i)).RunningCount ≠ (ds (n + i)).DesiredCount) →
      (ds (n + k)).RunningCount = (ds (n + k)).DesiredCount →
      k < ticks →
      Wait svc cluster service arn ticks n =
        (some (.ret none),
          List.replicate (k + 1) (Call.DescribeServices (statusInput cluster service))) := by
  intro k
  induction k with
  | zero =>
    intro n ticks hentry _ hconv hticks
    obtain ⟨m, rfl⟩ : ∃ m, ticks = m + 1 := ⟨ticks - 1, by omega⟩
    have hget := GetDeployment_of_hasEntry svc n cluster service arn (ds n)
      (by simpa using hentry 0 (Nat.le_refl 0))
    rw [Nat.add_zero] at hconv
    simp [Wait, hget, hconv]
  | succ k ih =>
    intro n ticks hentry hnot hconv hticks
    obtain ⟨m, rfl⟩ : ∃ m, ticks = m + 1 := ⟨ticks - 1, by omega⟩
    have hget := GetDeployment_of_hasEntry svc n cluster service arn (ds n)
      (by simpa using hentry 0 (Nat.zero_le _))
    have hne : (ds n).RunningCount ≠ (ds n).DesiredCount := by
      simpa using hnot 0 (Nat.succ_pos k)
    have hrest := ih (n + 1) m
      (fun i hi => by
        have := hentry (i + 1) (by omega)
        rwa [show n + (i + 1) = n + 1 + i by omega] at this)
      (fun i hi => by
        have := hnot (i + 1) (by omega)
        rwa [show n + (i + 1) = n + 1 + i by omega] at this)
      (by rwa [show n + (k + 1) = n + 1 + k by omega] at hconv)
      (by omega)
    rw [Wait, hget]
    simp only [if_neg hne, hrest]
    rfl

theorem Wait_panics_of_nil_deployment (svc : ECS) (cluster service arn : Str)
    (ticks n : Nat) (call : Call)
    (h : GetDeployment svc n cluster service arn = (.ret (none, none), call)) :
    Wait svc cluster service arn (ticks + 1) n = (some .panic, [call]) := by
  rw [Wait, h]

/-- C3 (the code departs from it).  The first status query succeeds and lists no
deployment for the new revision, the later ones show it converged: `GetDeployment`
returns `nil, nil` and `Wait` panics on the nil dereference at that first tick, after one
query, instead of going on to the second query. -/
theorem Wait_panics_without_entry :
    exSvcLag.DescribeServices 1 (statusInput "prod".toList "web".toList) = exStatus 3 0 3 ∧
    GetDeployment exSvcLag 0 "prod".toList "web".toList arnApp2 =
      (.ret (none, none), Call.DescribeServices (statusInput "prod".toList "web".toList)) ∧
    Wait exSvcLag "prod".toList "web".toList arnApp2 2 0 =
      (some .panic, [Call.DescribeServices (statusInput "prod".toList "web".toList)]) :=
  ⟨rfl, by decide, by decide⟩

/-- C4.  When the status responses `0..k` are successful and each contains the
deployment entry for `arn`, and response `k` is the first whose entry has its running
count equal to its desired count, `Wait` returns success having issued exactly `k + 1`
status queries, however many further ticks the ticker would deliver. -/
theorem Wait_returns_at_first_convergence (svc : ECS) (cluster service arn : Str)
    (ds : Nat → Deployment) (k : Nat)
    (hentry : ∀ i, i ≤ k →
      HasEntry (svc.DescribeServices i (statusInput cluster service)) arn (ds i))
    (hnot : ∀ i, i < k → (ds i).RunningCount ≠ (ds i).DesiredCount)
    (hconv : (ds k).RunningCount = (ds k).DesiredCount) :
    ∀ ticks, k < ticks →
      Wait svc cluster service arn ticks 0 =
        (some (.ret none),
          List.replicate (k + 1) (Call.DescribeServices (statusInput cluster service))) := by
  intro ticks hticks
  exact Wait_converges_from svc cluster service arn ds k 0 ticks
    (fun i hi => by simpa using hentry i hi)
    (fun i hi => by simpa using hnot i hi)
    (by simpa using hconv) hticks

/-- Witness of C4: the responses (3,1), (3,2), (3,3) give success after exactly three
queries, and a first response (3,3) gives success after exactly one query, with ten
ticks available. -/
theorem Wait_returns_at_first_convergence_witness :
    Wait exSvcRollout "prod".toList "web".toList arnApp2 10 0 =
      (some (.ret none),
        List.replicate 3 (Call.DescribeServices (statusInput "prod".toList "web".toList))) ∧
    Wait exSvcConverged "prod".toList "web".toList arnApp2 10 0 =
      (some (.ret none),
        List.replicate 1 (Call.DescribeServices (statusInput "prod".toList "web".toList))) :=
  ⟨Wait_returns_at_first_convergence exSvcRollout "prod".toList "web".toList arnApp2
      exRollout 2
      (fun i hi => by
        interval_cases i <;> exact ⟨_, [], [], [], rfl, rfl, rfl, by simp⟩)
      (fun i hi => by interval_cases i <;> decide)
      (by decide) 10 (by decide),
    Wait_returns_at_first_convergence exSvcConverged "prod".toList "web".toList arnApp2
      (fun _ => exRollout 2) 0
      (fun i hi => by
        interval_cases i; exact ⟨_, [], [], [], rfl, rfl, rfl, by simp⟩)
      (fun i hi => by omega)
      (by decide) 10 (by decide)⟩

/-! ## `RegisterTaskDefinition` -/

theorem rewriteImage_of_starts (image tag : Str) (d : ContainerDefinition)
    (h : image <+: d.Image) :
    rewriteImage image tag d = { d with Image := image ++ ':' :: tag } := by
  simp [rewriteImage, stringsHasPrefix, h, sprintfColon]

theorem rewriteImage_of_not_starts (image tag : Str) (d : ContainerDefinition)
    (h : ¬ image <+: d.Image) :
    rewriteImage image tag d = d := by
  simp [rewriteImage, stringsHasPrefix, h]

theorem RegisterTaskDefinition_log (svc : ECS) (task image tag : Str) (S : TaskDefinition)
    (h : svc.DescribeTaskDefinition { TaskDefinition := some task } = .ok S) :
    (RegisterTaskDefinition svc task image tag).2 =
      [ Call.DescribeTaskDefinition { TaskDefinition := some task },
        Call.RegisterTaskDefinition
          { Family := some task
            TaskRoleArn := S.TaskRoleArn
            NetworkMode := S.NetworkMode
            ContainerDefinitions := S.ContainerDefinitions.map (rewriteImage image tag)
            Volumes := S.Volumes
            PlacementConstraints := S.PlacementConstraints } ] := by
  unfold RegisterTaskDefinition GetTaskDefinition
  simp only [h]
  split <;> simp

/-- C2.  When the gateway returns the task definition `S` for `task`, the request that
`RegisterTaskDefinition` submits has a container list of the same length as that of `S`,
and at every position the container whose image starts with `image` has its image
replaced by `image ++ ":" ++ tag` (every such container, not only the first) while a
container whose image does not start with `image` is unchanged. -/
theorem RegisterTaskDefinition_rewrites_containers (svc : ECS) (task image tag : Str)
    (S : TaskDefinition)
    (h : svc.DescribeTaskDefinition { TaskDefinition := some task } = .ok S) :
    ∃ input : RegisterTaskDefinitionInput,
      (RegisterTaskDefinition svc task image tag).2 =
        [Call.DescribeTaskDefinition { TaskDefinition := some task },
          Call.RegisterTaskDefinition input] ∧
      input.ContainerDefinitions.length = S.ContainerDefinitions.length ∧
      ∀ (i : Nat) (d : ContainerDefinition), S.ContainerDefinitions[i]? = some d →
        (image <+: d.Image →
          input.ContainerDefinitions[i]? = some { d with Image := image ++ ':' :: tag }) ∧
        (¬ image <+: d.Image → input.ContainerDefinitions[i]? = some d) := by
  refine ⟨_, RegisterTaskDefinition_log svc task image tag S h, by simp, ?_⟩
  intro i d hd
  simp only [List.getElem?_map, hd, Option.map_some']
  exact ⟨fun hp => by rw [rewriteImage_of_starts image tag d hp],
    fun hp => by rw [rewriteImage_of_not_starts image tag d hp]⟩

/-- Witness of C2: image `123.dkr.ecr/app`, tag `v2` and a container with image
`123.dkr.ecr/app:v1` give the image `123.dkr.ecr/app:v2` in the submitted request, the
proxy container being unchanged. -/
theorem RegisterTaskDefinition_rewrites_containers_witness :
    (RegisterTaskDefinition (exSvcRegister exWebV1) "web".toList "123.dkr.ecr/app".toList
        "v2".toList).2 =
      [ Call.DescribeTaskDefinition { TaskDefinition := some "web".toList },
        Call.RegisterTaskDefinition
          { Family := some "web".toList
            TaskRoleArn := exWebV1.TaskRoleArn
            NetworkMode := exWebV1.NetworkMode
            ContainerDefinitions :=
              [exContainer "app".toList "123.dkr.ecr/app:v2".toList,
                exContainer "proxy".toList "nginx:1.11".toList]
            Volumes := exWebV1.Volumes
            PlacementConstraints := exWebV1.PlacementConstraints } ] ∧
    ∃ input : RegisterTaskDefinitionInput,
      (RegisterTaskDefinition (exSvcRegister exWebV1) "web".toList "123.dkr.ecr/app".toList
          "v2".toList).2 =
        [Call.DescribeTaskDefinition { TaskDefinition := some "web".toList },
          Call.RegisterTaskDefinition input] ∧
      input.ContainerDefinitions.length = exWebV1.ContainerDefinitions.length ∧
      ∀ (i : Nat) (d : ContainerDefinition), exWebV1.ContainerDefinitions[i]? = some d →
        ("123.dkr.ecr/app".toList <+: d.Image →
          input.ContainerDefinitions[i]? =
            some { d with Image := "123.dkr.ecr/app".toList ++ ':' :: "v2".toList }) ∧
        (¬ "123.dkr.ecr/app".toList <+: d.Image → input.ContainerDefinitions[i]? = some d) :=
  ⟨by decide,
    RegisterTaskDefinition_rewrites_containers (exSvcRegister exWebV1) "web".toList
      "123.dkr.ecr/app".toList "v2".toList exWebV1 rfl⟩

/-- C6 (counterexample).  Image name `app`, tag `v2`: the container of repository
`app-sidecar`, which is not the repository `app`, is not left untouched; its image
`app-sidecar:v1` is rewritten to `app:v2`. -/
theorem RegisterTaskDefinition_rewrites_sidecar :
    "app-sidecar".toList ≠ "app".toList ∧
    exSidecar.ContainerDefinitions.map (fun d => d.Image) =
      ["app:v1".toList, "app-sidecar:v1".toList] ∧
    (RegisterTaskDefinition (exSvcRegister exSidecar) "web".toList "app".toList
        "v2".toList).2 =
      [ Call.DescribeTaskDefinition { TaskDefinition := some "web".toList },
        Call.RegisterTaskDefinition
          { Family := some "web".toList
            TaskRoleArn := exSidecar.TaskRoleArn
            NetworkMode := exSidecar.NetworkMode
            ContainerDefinitions :=
              [exContainer "app".toList "app:v2".toList,
                exContainer "sidecar".toList "app:v2".toList]
            Volumes := exSidecar.Volumes
            PlacementConstraints := exSidecar.PlacementConstraints } ] := by
  decide

/-- C6 (amended).  When the gateway returns `S` for `task`, every container of `S` is
submitted with its image equal to `image ++ ":" ++ tag` if and only if its image string
starts with `image`; so a container whose image is `image` or `image ++ ":" ++ t` for
some `t` (repository part equal to the image name) is rewritten, and a container whose
image does not start with `image` is submitted unchanged. -/
theorem RegisterTaskDefinition_rewrites_iff_starts (svc : ECS) (task image tag : Str)
    (S : TaskDefinition)
    (h : svc.DescribeTaskDefinition { TaskDefinition := some task } = .ok S) :
    ∃ input : RegisterTaskDefinitionInput,
      (RegisterTaskDefinition svc task image tag).2 =
        [Call.DescribeTaskDefinition { TaskDefinition := some task },
          Call.RegisterTaskDefinition input] ∧
      ∀ (i : Nat) (d : ContainerDefinition), S.ContainerDefinitions[i]? = some d →
        ∃ d' : ContainerDefinition, input.ContainerDefinitions[i]? = some d' ∧
          (d'.Image = image ++ ':' :: tag ↔ image <+: d.Image) ∧
          (∀ t : Str, d.Image = image ∨ d.Image = image ++ ':' :: t →
            d'.Image = image ++ ':' :: tag) ∧
          (¬ image <+: d.Image → d' = d) := by
  refine ⟨_, RegisterTaskDefinition_log svc task image tag S h, ?_⟩
  intro i d hd
  refine ⟨rewriteImage image tag d, by simp [hd], ?_, ?_, ?_⟩
  · by_cases hp : image <+: d.Image
    · rw [rewriteImage_of_starts image tag d hp]
      simp [hp]
    · rw [rewriteImage_of_not_starts image tag d hp]
      constructor
      · intro heq
        exact ⟨':' :: tag, heq.symm⟩
      · intro hp'
        exact absurd hp' hp
  · intro t ht
    have hp : image <+: d.Image := by
      rcases ht with ht | ht
      · rw [ht]
      · rw [ht]; exact List.prefix_append _ _
    rw [rewriteImage_of_starts image tag d hp]
  · intro hp
    exact rewriteImage_of_not_starts image tag d hp

/-- Witness of C6 (amended) on the task definition with the containers `app:v1` and
`app-sidecar:v1`. -/
theorem RegisterTaskDefinition_rewrites_iff_starts_witness :
    ∃ input : RegisterTaskDefinitionInput,
      (RegisterTaskDefinition (exSvcRegister exSidecar) "web".toList "app".toList
          "v2".toList).2 =
        [Call.DescribeTaskDefinition { TaskDefinition := some "web".toList },
          Call.RegisterTaskDefinition input] ∧
      ∀ (i : Nat) (d : ContainerDefinition), exSidecar.ContainerDefinitions[i]? = some d →
        ∃ d' : ContainerDefinition, input.ContainerDefinitions[i]? = some d' ∧
          (d'.Image = "app".toList ++ ':' :: "v2".toList ↔ "app".toList <+: d.Image) ∧
          (∀ t : Str, d.Image = "app".toList ∨ d.Image = "app".toList ++ ':' :: t →
            d'.Image = "app".toList ++ ':' :: "v2".toList) ∧
          (¬ "app".toList <+: d.Image → d' = d) :=
  RegisterTaskDefinition_rewrites_iff_starts (exSvcRegister exSidecar) "web".toList
    "app".toList "v2".toList exSidecar rfl

/-- C8 (counterexample).  The task argument `web:3` names revision 3 of family web; the
gateway returns that definition, whose family name is `web`, and the request submitted
for registration carries the family name `web:3`. -/
theorem RegisterTaskDefinition_family_is_task_argument :
    (exSvcRegister exWebV1).DescribeTaskDefinition { TaskDefinition := some "web:3".toList } =
      .ok exWebV1 ∧
    exWebV1.Family = some "web".toList ∧
    (RegisterTaskDefinition (exSvcRegister exWebV1) "web:3".toList "123.dkr.ecr/app".toList
        "v2".toList).2 =
      [ Call.DescribeTaskDefinition { TaskDefinition := some "web:3".toList },
        Call.RegisterTaskDefinition
          { Family := some "web:3".toList
            TaskRoleArn := exWebV1.TaskRoleArn
            NetworkMode := exWebV1.NetworkMode
            ContainerDefinitions :=
              [exContainer "app".toList "123.dkr.ecr/app:v2".toList,
                exContainer "proxy".toList "nginx:1.11".toList]
            Volumes := exWebV1.Volumes
            PlacementConstraints := exWebV1.PlacementConstraints } ] ∧
    some "web:3".toList ≠ exWebV1.Family :=
  ⟨rfl, rfl, by decide, by decide⟩

/-- C8 (amended).  When the gateway returns `S` for `task`, the request submitted for
registration has the task role, network mode, volumes and placement constraints of `S`,
its family name is the `task` argument, and its containers are those of `S`, position
by position, each differing from the original at most in its image, and not at all when
the original image does not start with `image`. -/
theorem RegisterTaskDefinition_keeps_other_fields (svc : ECS) (task image tag : Str)
    (S : TaskDefinition)
    (h : svc.DescribeTaskDefinition { TaskDefinition := some task } = .ok S) :
    ∃ input : RegisterTaskDefinitionInput,
      (RegisterTaskDefinition svc task image tag).2 =
        [Call.DescribeTaskDefinition { TaskDefinition := some task },
          Call.RegisterTaskDefinition input] ∧
      input.Family = some task ∧
      input.TaskRoleArn = S.TaskRoleArn ∧
      input.NetworkMode = S.NetworkMode ∧
      input.Volumes = S.Volumes ∧
      input.PlacementConstraints = S.PlacementConstraints ∧
      input.ContainerDefinitions.length = S.ContainerDefinitions.length ∧
      ∀ (i : Nat) (d d' : ContainerDefinition),
        S.ContainerDefinitions[i]? = some d → input.ContainerDefinitions[i]? = some d' →
        d' = { d with Image := d'.Image } ∧ (¬ image <+: d.Image → d' = d) := by
  refine ⟨_, RegisterTaskDefinition_log svc task image tag S h, rfl, rfl, rfl, rfl, rfl,
    by simp, ?_⟩
  intro i d d' hd hd'
  simp only [List.getElem?_map, hd, Option.map_some', Option.some.injEq] at hd'
  subst hd'
  refine ⟨?_, fun hp => rewriteImage_of_not_starts image tag d hp⟩
  by_cases hp : image <+: d.Image
  · rw [rewriteImage_of_starts image tag d hp]
  · rw [rewriteImage_of_not_starts image tag d hp]

/-- Witness of C8 (amended) on the task argument `web:3`. -/
theorem RegisterTaskDefinition_keeps_other_fields_witness :
    ∃ input : RegisterTaskDefinitionInput,
      (RegisterTaskDefinition (exSvcRegister exWebV1) "web:3".toList
          "123.dkr.ecr/app".toList "v2".toList).2 =
        [Call.DescribeTaskDefinition { TaskDefinition := some "web:3".toList },
          Call.RegisterTaskDefinition input] ∧
      input.Family = some "web:3".toList ∧
      input.TaskRoleArn = exWebV1.TaskRoleArn ∧
      input.NetworkMode = exWebV1.NetworkMode ∧
      input.Volumes = exWebV1.Volumes ∧
      input.PlacementConstraints = exWebV1.PlacementConstraints ∧
      input.ContainerDefinitions.length = exWebV1.ContainerDefinitions.length ∧
      ∀ (i : Nat) (d d' : ContainerDefinition),
        exWebV1.ContainerDefinitions[i]? = some d → input.ContainerDefinitions[i]? = some d' →
        d' = { d with Image := d'.Image } ∧
          (¬ "123.dkr.ecr/app".toList <+: d.Image → d' = d) :=
  RegisterTaskDefinition_keeps_other_fields (exSvcRegister exWebV1) "web:3".toList
    "123.dkr.ecr/app".toList "v2".toList exWebV1 rfl

/-! ## `UpdateService` -/

theorem UpdateService_log (svc : ECS) (cluster service : Str) (count : Int) (arn : Str) :
    (UpdateService svc cluster service count arn).2 =
      [ Call.UpdateService
          { Cluster := some cluster
            Service := some service
            DesiredCount := if count ≠ -1 then some count else none
            TaskDefinition := if arn ≠ [] then some arn else none } ] := by
  unfold UpdateService
  by_cases hc : count = -1 <;> by_cases ha : arn = [] <;>
    simp only [hc, ha, ne_eq, not_true_eq_false, not_false_eq_true, if_true, if_false] <;>
    split <;> rfl

/-- C7 (counterexample).  For the negative count -2, which is not the sentinel -1, the
update request carries the desired count -2. -/
theorem UpdateService_carries_negative_count :
    (UpdateService (exSvcRegister exWebV1) "prod".toList "web".toList (-2) arnApp2).2 =
      [ Call.UpdateService
          { Cluster := some "prod".toList
            Service := some "web".toList
            DesiredCount := some (-2)
            TaskDefinition := some arnApp2 } ] := by
  decide

/-- C7 (amended).  The update request built by `UpdateService` carries a desired count,
equal to `count`, if and only if `count` is not the sentinel -1; for -1 it carries none.
In particular every non-negative count is carried. -/
theorem UpdateService_desired_count (svc : ECS) (cluster service : Str) (count : Int)
    (arn : Str) :
    ∃ input : UpdateServiceInput,
      (UpdateService svc cluster service count arn).2 = [Call.UpdateService input] ∧
      input.Cluster = some cluster ∧
      input.Service = some service ∧
      ((∃ c, input.DesiredCount = some c) ↔ count ≠ -1) ∧
      (∀ c, input.DesiredCount = some c → c = count) ∧
      (count = -1 → input.DesiredCount = none) ∧
      (0 ≤ count → input.DesiredCount = some count) := by
  refine ⟨_, UpdateService_log svc cluster service count arn, rfl, rfl, ?_, ?_, ?_, ?_⟩
  · by_cases hc : count = -1 <;> simp [hc]
  · intro c hcarried
    by_cases hc : count = -1
    · simp [hc] at hcarried
    · simpa [hc] using hcarried.symm
  · intro hc
    simp [hc]
  · intro hc
    have hne : count ≠ -1 := by omega
    simp [hne]

end EcsDeploy
